import Mathlib

/-!
Verification development for the upload service repository.

Shallow embedding of the python sources under `src/upload_service/`:
`tracker.py` (UploadTracker), `monitor.py` (FolderMonitor),
`uploader.py` (S3Uploader) and `coordinator.py` (UploadCoordinator).

Modelling conventions:
* python dicts are association lists `List (String × α)` with python-3.7
  insertion-order semantics: insertion of an existing key replaces the
  value in place, deletion removes the key, iteration follows list order;
* python sets are lists considered up to membership;
* file modification times are modelled as integers (only equality and
  order on mtimes occur in the code);
* filesystem access is a snapshot passed explicitly: a directory listing
  function and an mtime function; a `stat` that can fail is an
  `Option Int` oracle (`none` models the raised `OSError`);
* fallible python code is embedded in `Except PyErr`; `PyErr` carries the
  exception kinds the code can actually raise.
-/

namespace UploadService

/-- Exception kinds raised by the embedded code paths. -/
inductive PyErr where
  | keyError (k : String)
  | typeError
  | fileNotFound (p : String)
  | unboundLocal (v : String)
  | clientError (msg : String)
  | retryError
deriving DecidableEq, Repr

/-- Message of an exception, as python `str(e)`; abstract but injective
enough for the claims (only passed through into result objects). -/
def PyErr.msg : PyErr → String
  | .keyError k => "KeyError: " ++ k
  | .typeError => "TypeError"
  | .fileNotFound p => "FileNotFoundError: " ++ p
  | .unboundLocal v => "UnboundLocalError: " ++ v
  | .clientError m => m
  | .retryError => "RetryError"

/-! ### python dict as an association list -/

/-- `d.get(k)` / `d[k]` lookup: first binding of `k`. -/
def dlookup {α : Type} : List (String × α) → String → Option α
  | [], _ => none
  | (k', v) :: rest, k => if k' = k then some v else dlookup rest k

/-- `d[k] = v`: replace in place if `k` is bound, else append
(python-3.7 dict insertion-order semantics). -/
def dinsert {α : Type} : List (String × α) → String → α → List (String × α)
  | [], k, v => [(k, v)]
  | (k', v') :: rest, k, v =>
    if k' = k then (k, v) :: rest else (k', v') :: dinsert rest k v

/-- `del d[k]` / `d.pop(k, None)`: remove the binding of `k`
(dict keys are unique, so removing every occurrence coincides). -/
def dremove {α : Type} (m : List (String × α)) (k : String) : List (String × α) :=
  m.filter (fun kv => kv.1 != k)

/-- `d.keys()` in iteration order. -/
def dkeys {α : Type} (m : List (String × α)) : List String :=
  m.map Prod.fst

/-- `d.values()` in iteration order. -/
def dvalues {α : Type} (m : List (String × α)) : List α :=
  m.map Prod.snd

/-! ### Data model (`models.py`) -/

/-- The in-progress multipart descriptor stored by
`UploadTracker.register_multipart_upload`:
an object with keys upload_id, part_number and offset. -/
structure MultipartDescriptor where
  upload_id : String
  part_number : Int
  offset : Int
deriving DecidableEq, Repr

/-- `models.UploadState`: the durable record for one upload task. -/
structure UploadState where
  upload_id : String
  source_folder : String
  destination_bucket : String
  pattern : String
  completed_files : List String
  in_progress_files : List (String × MultipartDescriptor)
  last_modified_times : List (String × Int)
deriving DecidableEq, Repr

/-- `models.UploadRequest` (validation happens at construction in python;
the fields used by the tracker and coordinator are modelled). -/
structure UploadRequest where
  upload_id : String
  source_folder : String
  destination_bucket : String
  pattern : String
deriving DecidableEq, Repr

/-- `models.UploadResult` for a single file transfer. -/
structure UploadResult where
  file_path : String
  s3_key : String
  success : Bool
  error : Option String
  size_bytes : Option Nat
  etag : Option String
deriving DecidableEq, Repr

/-- `models.MonitoredFolder`: one Monitor watch target. -/
structure MonitoredFolder where
  source_folder : String
  destination_path : String
  pattern : String
  last_check : Int
  known_files : List String
deriving DecidableEq, Repr

/-! ### JSON values (`json.load` / `json.dump`) -/

/-- JSON values as produced by `json.dump` and consumed by `json.load`.
Numbers are integers in this model (mtimes are modelled as integers and
the json layer of python round-trips numbers exactly). -/
inductive Json where
  | null
  | bool (b : Bool)
  | num (n : Int)
  | str (s : String)
  | arr (elems : List Json)
  | obj (fields : List (String × Json))
deriving Repr

/-! ### Tracker persistence (`tracker.py`: `_save_state` / `_load_state`)

`_save_state` writes an object whose single key `upload_states` holds
the list of `asdict(state)` documents for the map values, in order.
`asdict` is embedded field by field. -/

/-- `asdict` of one in-progress descriptor. -/
def encodeDescriptor (d : MultipartDescriptor) : Json :=
  .obj [("upload_id", .str d.upload_id),
        ("part_number", .num d.part_number),
        ("offset", .num d.offset)]

/-- `asdict(state)` for one `UploadState`. -/
def encodeState (s : UploadState) : Json :=
  .obj [("upload_id", .str s.upload_id),
        ("source_folder", .str s.source_folder),
        ("destination_bucket", .str s.destination_bucket),
        ("pattern", .str s.pattern),
        ("completed_files", .arr (s.completed_files.map .str)),
        ("in_progress_files",
          .obj (s.in_progress_files.map (fun kv => (kv.1, encodeDescriptor kv.2)))),
        ("last_modified_times",
          .obj (s.last_modified_times.map (fun kv => (kv.1, .num kv.2))))]

/-- The full document `_save_state` writes. -/
def saveStates (states : List (String × UploadState)) : Json :=
  .obj [("upload_states", .arr ((dvalues states).map encodeState))]

/-- `state_dict[k]`: a mandatory key access, `KeyError` when absent. -/
def getRequired (fields : List (String × Json)) (k : String) : Except PyErr Json :=
  match dlookup fields k with
  | some v => .ok v
  | none => .error (.keyError k)

/-- Coerce a JSON value to a string.  Used only by the typed decode of
the `_save_state` image (the round-trip property); `_load_state` itself
performs no such checks — its exact dynamic behaviour on arbitrary
content is `loadEntryRaw` / `loadStatesRaw` below. -/
def asStr : Json → Except PyErr String
  | .str s => .ok s
  | _ => .error .typeError

/-- Coerce a JSON value to an integer (same convention as `asStr`). -/
def asNum : Json → Except PyErr Int
  | .num n => .ok n
  | _ => .error .typeError

/-- Elementwise fallible map, failing at the first failing element. -/
def mapExcept {α β : Type} (f : α → Except PyErr β) : List α → Except PyErr (List β)
  | [] => .ok []
  | a :: rest =>
    match f a with
    | .error e => .error e
    | .ok b =>
      match mapExcept f rest with
      | .error e => .error e
      | .ok bs => .ok (b :: bs)

/-- Coerce a JSON array of strings (the `completed_files` field). -/
def asStrList : Json → Except PyErr (List String)
  | .arr xs => mapExcept asStr xs
  | _ => .error .typeError

/-- Coerce one in-progress descriptor object. -/
def asDescriptor : Json → Except PyErr MultipartDescriptor
  | .obj fields =>
    match getRequired fields "upload_id" with
    | .error e => .error e
    | .ok juid =>
      match asStr juid with
      | .error e => .error e
      | .ok uid =>
        match getRequired fields "part_number" with
        | .error e => .error e
        | .ok jpn =>
          match asNum jpn with
          | .error e => .error e
          | .ok pn =>
            match getRequired fields "offset" with
            | .error e => .error e
            | .ok joff =>
              match asNum joff with
              | .error e => .error e
              | .ok off => .ok ⟨uid, pn, off⟩
  | _ => .error .typeError

/-- Coerce the `in_progress_files` object. -/
def asDescriptorMap : Json → Except PyErr (List (String × MultipartDescriptor))
  | .obj fields => mapExcept (fun kv =>
      match asDescriptor kv.2 with
      | .error e => .error e
      | .ok d => .ok (kv.1, d)) fields
  | _ => .error .typeError

/-- Coerce the `last_modified_times` object. -/
def asNumMap : Json → Except PyErr (List (String × Int))
  | .obj fields => mapExcept (fun kv =>
      match asNum kv.2 with
      | .error e => .error e
      | .ok n => .ok (kv.1, n)) fields
  | _ => .error .typeError

/-- The typed decode of one `asdict(state)` document: the exact inverse
of `encodeState` on its image, used for the save/load round-trip.  On
content outside the save image this coerces field values and fails on a
mismatch, which `_load_state` itself would not do (python stores present
values unvalidated); the dynamically exact model of the load loop is
`loadEntryRaw` below, and the two agree on the save image
(`loadEntryRaw_encodeState`). -/
def parseState (j : Json) : Except PyErr UploadState :=
  match j with
  | .obj fields =>
    match (getRequired fields "upload_id").bind asStr with
    | .error e => .error e
    | .ok uid =>
      match (getRequired fields "source_folder").bind asStr with
      | .error e => .error e
      | .ok src =>
        match (getRequired fields "destination_bucket").bind asStr with
        | .error e => .error e
        | .ok bucket =>
          match (getRequired fields "pattern").bind asStr with
          | .error e => .error e
          | .ok pat =>
            match (dlookup fields "completed_files").elim (.ok []) asStrList with
            | .error e => .error e
            | .ok completed =>
              match (dlookup fields "in_progress_files").elim (.ok []) asDescriptorMap with
              | .error e => .error e
              | .ok inprog =>
                match (dlookup fields "last_modified_times").elim (.ok []) asNumMap with
                | .error e => .error e
                | .ok lmt =>
                  .ok ⟨uid, src, bucket, pat, completed, inprog, lmt⟩
  | _ => .error .typeError

/-- The loop of `_load_state` restricted to save-image content (the
round-trip): each decoded entry is inserted keyed by its own
`upload_id`; a failing entry aborts the loop, the exception is caught by
the `except` clause of `_load_state`, and the states accumulated so far
remain in `self._upload_states`. -/
def loadEntries : List Json → List (String × UploadState) → List (String × UploadState)
  | [], acc => acc
  | j :: rest, acc =>
    match parseState j with
    | .error _ => acc
    | .ok st => loadEntries rest (dinsert acc st.upload_id st)

/-- `_load_state` over the state-file content, in the typed restriction
used for the round-trip.  `none` models a missing, unreadable or
non-JSON file (the `json.load` failure is caught and logged).  A
top-level value that is not an object, or an `upload_states` value that
is not an array, raises on first use inside the `try` and likewise
degrades to the states accumulated so far (none). -/
def loadStates (content : Option Json) : List (String × UploadState) :=
  match content with
  | none => []
  | some (.obj fields) =>
    match dlookup fields "upload_states" with
    | some (.arr xs) => loadEntries xs []
    | some _ => []
    | none => []
  | some _ => []

/-! ### The dynamically exact model of `_load_state`

`UploadState` is a plain dataclass: the loop stores whatever values the
JSON held, without validation.  An iteration raises only when the entry
is not an object (`TypeError` on subscripting), when one of the four
mandatory `state_dict[...]` keys is absent (`KeyError`), or when the
`upload_id` value of the entry is unhashable — a list or an object — so the
dict insertion `self._upload_states[state.upload_id] = state` raises
`TypeError`.  Everything else, mistyped values included, is retained
raw. -/

mutual

/-- python `==` on parsed JSON values, as dict-key equality uses it:
structural, plus the python identification of booleans with the numbers
0 and 1 (`True == 1`, `False == 0`; numbers are integers in this
model). -/
def jeq : Json → Json → Bool
  | .null, .null => true
  | .bool a, .bool b => a == b
  | .bool a, .num n => (if a then (1 : Int) else 0) == n
  | .num n, .bool b => n == (if b then (1 : Int) else 0)
  | .num a, .num b => a == b
  | .str a, .str b => a == b
  | .arr a, .arr b => jeqList a b
  | .obj a, .obj b => jeqFields a b
  | _, _ => false

/-- python `==` on JSON arrays, elementwise. -/
def jeqList : List Json → List Json → Bool
  | [], [] => true
  | a :: as_, b :: bs => jeq a b && jeqList as_ bs
  | _, _ => false

/-- python `==` on JSON objects, field-list-wise. -/
def jeqFields : List (String × Json) → List (String × Json) → Bool
  | [], [] => true
  | (ka, va) :: as_, (kb, vb) :: bs => ka == kb && jeq va vb && jeqFields as_ bs
  | _, _ => false

end

/-- Lookup in a dict keyed by raw (hashable) JSON values. -/
def jlookup {α : Type} : List (Json × α) → Json → Option α
  | [], _ => none
  | (k', v) :: rest, k => if jeq k' k then some v else jlookup rest k

/-- `d[k] = v` for a dict keyed by raw JSON values: python replaces the
value in place and keeps the originally stored key object. -/
def jinsert {α : Type} : List (Json × α) → Json → α → List (Json × α)
  | [], k, v => [(k, v)]
  | (k', v') :: rest, k, v =>
    if jeq k' k then (k', v) :: rest else (k', v') :: jinsert rest k v

/-- An `UploadState` exactly as the dataclass stores it when constructed
by `_load_state` from arbitrary JSON: every field holds the raw value,
unvalidated. -/
structure RawState where
  upload_id : Json
  source_folder : Json
  destination_bucket : Json
  pattern : Json
  completed_files : Json
  in_progress_files : Json
  last_modified_times : Json
deriving Repr

/-- One iteration body of the `_load_state` loop on a raw entry: the
four mandatory subscripts in program order (each raising `KeyError` on
absence, or `TypeError` when the entry is not an object), the three
`.get` accesses with their defaults (empty list, empty dict, empty
dict), then the dict insertion keyed by the raw `upload_id` — which
raises `TypeError` when that value is a list or an object (unhashable).
The insertion failure is folded into this step: the constructed state is
observable only through the dict, and both failures abort the same
iteration inside the same `try`. -/
def loadEntryRaw (j : Json) : Except PyErr (Json × RawState) :=
  match j with
  | .obj fields =>
    match dlookup fields "upload_id" with
    | none => .error (.keyError "upload_id")
    | some uid =>
      match dlookup fields "source_folder" with
      | none => .error (.keyError "source_folder")
      | some src =>
        match dlookup fields "destination_bucket" with
        | none => .error (.keyError "destination_bucket")
        | some bucket =>
          match dlookup fields "pattern" with
          | none => .error (.keyError "pattern")
          | some pat =>
            match uid with
            | .arr _ => .error .typeError
            | .obj _ => .error .typeError
            | _ =>
              .ok (uid,
                ⟨uid, src, bucket, pat,
                 (dlookup fields "completed_files").getD (.arr []),
                 (dlookup fields "in_progress_files").getD (.obj []),
                 (dlookup fields "last_modified_times").getD (.obj [])⟩)
  | _ => .error .typeError

/-- The `_load_state` loop on raw entries: the first raising entry
aborts it, the exception is caught, and the entries inserted so far
remain. -/
def loadEntriesRaw : List Json → List (Json × RawState) → List (Json × RawState)
  | [], acc => acc
  | j :: rest, acc =>
    match loadEntryRaw j with
    | .error _ => acc
    | .ok kv => loadEntriesRaw rest (jinsert acc kv.1 kv.2)

/-- `_load_state` over arbitrary state-file content, dynamically exact:
`none` is a missing, unreadable or non-JSON file; a non-object top
level, or an `upload_states` value that is not an array, raises on
first use inside the `try` before any entry is inserted. -/
def loadStatesRaw (content : Option Json) : List (Json × RawState) :=
  match content with
  | none => []
  | some (.obj fields) =>
    match dlookup fields "upload_states" with
    | some (.arr xs) => loadEntriesRaw xs []
    | some _ => []
    | none => []
  | some _ => []

/-- The raw form of a well-typed state, as `_load_state` reconstructs it
from the `_save_state` image. -/
def toRawState (s : UploadState) : RawState :=
  ⟨.str s.upload_id, .str s.source_folder, .str s.destination_bucket,
   .str s.pattern,
   .arr (s.completed_files.map .str),
   .obj (s.in_progress_files.map (fun kv => (kv.1, encodeDescriptor kv.2))),
   .obj (s.last_modified_times.map (fun kv => (kv.1, .num kv.2)))⟩

/-! ### Tracker state and operations (`tracker.py`) -/

/-- `UploadTracker`: the in-memory map `_upload_states` plus the current
content of the persisted state file (`none` while no file has been
written). -/
structure Tracker where
  states : List (String × UploadState)
  stateFile : Option Json
deriving Repr

/-- A tracker constructed with no pre-existing state file. -/
def Tracker.init : Tracker := ⟨[], none⟩

/-- `UploadTracker.__init__`: load whatever the state file holds. -/
def Tracker.initFrom (content : Option Json) : Tracker :=
  ⟨loadStates content, content⟩

/-- `UploadTracker.get_upload_state`. -/
def get_upload_state (t : Tracker) (upload_id : String) : Option UploadState :=
  dlookup t.states upload_id

/-- The fresh state `register_upload` builds for a request. -/
def freshState (req : UploadRequest) : UploadState :=
  ⟨req.upload_id, req.source_folder, req.destination_bucket, req.pattern,
   [], [], []⟩

/-- `UploadTracker.register_upload`: unconditionally overwrite the entry
for `request.upload_id` with a fresh empty state and persist. -/
def register_upload (t : Tracker) (req : UploadRequest) : Tracker :=
  let states := dinsert t.states req.upload_id (freshState req)
  ⟨states, some (saveStates states)⟩

/-- `UploadTracker.mark_file_complete`.  `statResult` is the outcome of
`Path(file_path).stat().st_mtime` (`none` models the raised `OSError`
for a vanished file).  The returned flag is the exception propagated out
of the method, if any; the mutations made before the raising `stat` call
(removal from in-progress, append to completed) are retained in memory,
and `_save_state` is not reached in that case. -/
def mark_file_complete (t : Tracker) (upload_id file_path : String)
    (success : Bool) (statResult : Option Int) : Tracker × Option PyErr :=
  match dlookup t.states upload_id with
  | none => (t, none)
  | some st =>
    let st1 := { st with in_progress_files := dremove st.in_progress_files file_path }
    if success = true ∧ file_path ∉ st1.completed_files then
      let st2 := { st1 with completed_files := st1.completed_files ++ [file_path] }
      match statResult with
      | none =>
        (⟨dinsert t.states upload_id st2, t.stateFile⟩,
         some (.fileNotFound file_path))
      | some mtime =>
        let st3 := { st2 with
          last_modified_times := dinsert st2.last_modified_times file_path mtime }
        let states := dinsert t.states upload_id st3
        (⟨states, some (saveStates states)⟩, none)
    else
      let states := dinsert t.states upload_id st1
      (⟨states, some (saveStates states)⟩, none)

/-- `UploadTracker.register_multipart_upload`: upsert the in-progress
descriptor for `file_path` and persist; silently a no-op for an
unregistered upload id. -/
def register_multipart_upload (t : Tracker) (upload_id file_path s3_upload_id : String)
    (part_number offset : Int) : Tracker :=
  match dlookup t.states upload_id with
  | none => t
  | some st =>
    let st1 := { st with
      in_progress_files :=
        dinsert st.in_progress_files file_path ⟨s3_upload_id, part_number, offset⟩ }
    let states := dinsert t.states upload_id st1
    ⟨states, some (saveStates states)⟩

/-- `UploadTracker.get_incomplete_files`.  The filesystem snapshot is
passed explicitly: `listing folder pat` is
`set(str(p) for p in Path(folder).glob(pat) if p.is_file())` and
`mtime p` is `Path(p).stat().st_mtime` for a listed file.  Sets are
lists up to membership. -/
def get_incomplete_files (t : Tracker)
    (listing : String → String → List String) (mtime : String → Int)
    (upload_id : String) : List String :=
  match dlookup t.states upload_id with
  | none => []
  | some st =>
    let current_files := listing st.source_folder st.pattern
    let incomplete := current_files.filter (fun p =>
      decide (p ∉ st.completed_files ∨
        mtime p ≠ (dlookup st.last_modified_times p).getD 0))
    incomplete ++ dkeys st.in_progress_files

/-! ### Tracker traces -/

/-- One public mutating tracker call, with its filesystem oracle. -/
inductive TrackerOp where
  | reg (req : UploadRequest)
  | mark (upload_id file_path : String) (success : Bool) (statResult : Option Int)
  | multi (upload_id file_path s3_upload_id : String) (part_number offset : Int)
deriving DecidableEq, Repr

/-- Apply one call to the tracker (the state evolution; a raised
exception from `mark_file_complete` leaves exactly the state recorded in
the first component of the pair). -/
def trackerStep (t : Tracker) : TrackerOp → Tracker
  | .reg req => register_upload t req
  | .mark upload_id file_path success statResult =>
    (mark_file_complete t upload_id file_path success statResult).1
  | .multi upload_id file_path s3_upload_id part_number offset =>
    register_multipart_upload t upload_id file_path s3_upload_id part_number offset

/-- Run a call sequence. -/
def trackerRun (t : Tracker) (ops : List TrackerOp) : Tracker :=
  ops.foldl trackerStep t

/-- A trace restriction: `register_multipart_upload` is never invoked
with a file path already recorded as completed for that (registered)
upload id at the moment of the call. -/
def admissibleFrom (t : Tracker) : List TrackerOp → Bool
  | [] => true
  | op :: rest =>
    (match op with
     | .multi upload_id file_path _ _ _ =>
       match dlookup t.states upload_id with
       | some st => !(st.completed_files.contains file_path)
       | none => true
     | _ => true)
    && admissibleFrom (trackerStep t op) rest

/-! ### Monitor (`monitor.py`: `FolderMonitor._monitor_folder`)

One iteration of the poll loop is embedded as a pure function over the
`MonitoredFolder` record of the target and an environment snapshot: the
current directory listing, the on-disk mtimes, the wall clock, whether a
callback is registered, whether that callback raises when invoked, and
whether the upload id is still registered in `_monitors`.  The callback
is a single function slot, so an iteration invokes it zero or one times;
`delivered = some s` records the one invocation and its argument. -/

/-- Environment snapshot for one poll iteration. -/
structure PollEnv where
  current : List String
  mtime : String → Int
  now : Int
  cbRegistered : Bool
  cbRaises : Bool
  registered : Bool

/-- The `changed_files` set computed by the iteration: a listed file
that was not previously known, or whose mtime exceeds the timestamp of
the previous poll. -/
def changedFiles (m : MonitoredFolder) (env : PollEnv) : List String :=
  env.current.filter (fun f =>
    decide (f ∉ m.known_files ∨ env.mtime f > m.last_check))

/-- Result of one poll iteration. -/
structure PollOutcome where
  folder : MonitoredFolder
  delivered : Option (List String)
  broke : Bool

/-- The argument of the callback invocation of the iteration: `some changed`
exactly when `changed_files` is non-empty and a callback is registered
(`if changed_files and self._callback:`), else `none` (no invocation). -/
def deliveredSet (m : MonitoredFolder) (env : PollEnv) : Option (List String) :=
  if changedFiles m env ≠ [] ∧ env.cbRegistered = true then
    some (changedFiles m env)
  else none

/-- One iteration of the `while` body in `_monitor_folder`: break when
the id is no longer registered; compute `changed_files`; invoke the
callback exactly when the set is non-empty and a callback is registered;
then update `known_files` and `last_check` — unless the callback raised,
in which case the `except Exception` clause catches the exception before
the update lines run, and the iteration ends with the folder record
unchanged. -/
def pollIteration (m : MonitoredFolder) (env : PollEnv) : PollOutcome :=
  if env.registered = false then ⟨m, none, true⟩
  else if (deliveredSet m env).isSome = true ∧ env.cbRaises = true then
    ⟨m, deliveredSet m env, false⟩
  else
    ⟨{ m with known_files := env.current, last_check := env.now },
     deliveredSet m env, false⟩

/-- The poll loop over a finite schedule of iteration environments (one
per interval tick until the stop event is set).  Each exception of an
iteration is caught inside the body, so the loop only terminates through
its `break` (deregistration) or the end of the schedule. -/
def monitorLoop (m : MonitoredFolder) :
    List PollEnv → MonitoredFolder × List (Option (List String))
  | [] => (m, [])
  | env :: rest =>
    let o := pollIteration m env
    if o.broke = true then (o.folder, [])
    else
      let r := monitorLoop o.folder rest
      (r.1, o.delivered :: r.2)

/-! ### Monitor registry and Coordinator (`monitor.py`, `coordinator.py`) -/

/-- The bookkeeping of `FolderMonitor`: `_monitors`, and the key sets of
`_stop_events` and `_monitor_threads` (the event/thread objects carry no
state the claims need). -/
structure MonitorState where
  monitors : List (String × MonitoredFolder)
  stop_events : List String
  monitor_threads : List String
deriving DecidableEq, Repr

/-- `FolderMonitor.unregister_folder`: a warned no-op when the id is not
monitored; otherwise signal and join the thread and drop the id from all
three maps. -/
def unregister_folder (ms : MonitorState) (upload_id : String) : MonitorState :=
  if (dlookup ms.monitors upload_id).isNone then ms
  else
    ⟨dremove ms.monitors upload_id,
     ms.stop_events.filter (fun k => k != upload_id),
     ms.monitor_threads.filter (fun k => k != upload_id)⟩

/-- `UploadCoordinator`: its tracker, the registry of its monitor, and the key
set of `_active_uploads` (the `S3Uploader` handles carry no state the
claims need). -/
structure Coordinator where
  tracker : Tracker
  monitor : MonitorState
  active_uploads : List String
deriving Repr

/-- `UploadCoordinator.stop_upload`: unregister the monitor target and
pop the in-memory uploader handle; the tracker is not touched. -/
def stop_upload (c : Coordinator) (upload_id : String) : Coordinator :=
  { c with
    monitor := unregister_folder c.monitor upload_id,
    active_uploads := c.active_uploads.filter (fun k => k != upload_id) }

/-- Outcome of one file in a transfer batch, as `_process_files` of the
coordinator consumes it: the file path, the success flag of the result,
and the `stat` oracle for the `mark_file_complete` call it triggers. -/
structure BatchResult where
  file_path : String
  success : Bool
  statResult : Option Int
deriving DecidableEq, Repr

/-- The tracker updates of `UploadCoordinator._process_files`: for every
successful result of the batch, in order, `mark_file_complete`. -/
def processResults (t : Tracker) (upload_id : String) :
    List BatchResult → Tracker
  | [] => t
  | r :: rest =>
    processResults
      (if r.success = true then
        (mark_file_complete t upload_id r.file_path r.success r.statResult).1
      else t) upload_id rest

/-- The tracker-visible effect of `UploadCoordinator.start_upload`: the
request is registered unconditionally (overwriting any existing state
for the id), then the batch results of the initial scan are processed. -/
def startUploadTracker (t : Tracker) (req : UploadRequest)
    (results : List BatchResult) : Tracker :=
  processResults (register_upload t req) req.upload_id results

/-! ### Transfer engine (`uploader.py`: `S3Uploader._upload_file`)

The remote client and the filesystem are snapshot oracles.  The
`tenacity` retry decorators retry on any exception up to 3 attempts; the
oracles are deterministic, so every attempt has the same outcome and a
failing body surfaces as a `RetryError` after the cap. -/

/-- Outcomes of the S3 client calls for one file (deterministic
snapshot): `put` is `upload_file` (returning the optional ETag of the
response), `createMp` is `create_multipart_upload` (the session id),
`uploadPart pn` is `upload_part` for part `pn` (its ETag — already the
outcome of the inner per-part retry), `completeMp` finalizes, `abortMp`
aborts. -/
structure S3Env where
  put : Except PyErr (Option String)
  createMp : Except PyErr String
  uploadPart : Nat → Except PyErr String
  completeMp : Except PyErr Unit
  abortMp : Except PyErr Unit

/-- A failed `UploadResult` as the `except` clauses build it. -/
def failedResult (file_path s3_key msg : String) (size_bytes : Option Nat) :
    UploadResult :=
  ⟨file_path, s3_key, false, some msg, size_bytes, none⟩

/-- The part loop of `_multipart_upload`: read fixed-size chunks while
`offset < size_bytes`, upload each part, collect `(part_number, etag)`.
Returns the parts on success or the first part failure. -/
def mpLoop (env : S3Env) (chunk_size : Nat) (remaining : Nat) (part_number : Nat)
    (acc : List (Nat × String)) : Except PyErr (List (Nat × String)) :=
  if remaining = 0 then .ok acc.reverse
  else
    let chunk := min chunk_size remaining
    if h : chunk = 0 then .ok acc.reverse
    else
      match env.uploadPart part_number with
      | .error e => .error e
      | .ok etag =>
        mpLoop env chunk_size (remaining - chunk) (part_number + 1)
          ((part_number, etag) :: acc)
termination_by remaining
decreasing_by
  have h1 : 0 < chunk := Nat.pos_of_ne_zero h
  omega

/-- `S3Uploader._multipart_upload` (one attempt of its body).  The
initial `stat` sits before the `try`, so a vanished file raises outward;
inside the `try`, any failure aborts the session (when the session id
was bound) and is converted into a failed result carrying the message. -/
def multipart_upload (fs : String → Option Nat) (chunk_size : Nat) (env : S3Env)
    (file_path s3_key : String) : Except PyErr UploadResult :=
  match fs file_path with
  | none => .error (.fileNotFound file_path)
  | some size_bytes =>
    match env.createMp with
    | .error e =>
      -- `upload_id` not yet bound: the abort guard is skipped.
      .ok (failedResult file_path s3_key e.msg (some size_bytes))
    | .ok _upload_id =>
      match mpLoop env chunk_size size_bytes 1 [] with
      | .error e =>
        -- abort attempted; its own failure is swallowed either way
        .ok (failedResult file_path s3_key e.msg (some size_bytes))
      | .ok parts =>
        match env.completeMp with
        | .error e =>
          .ok (failedResult file_path s3_key e.msg (some size_bytes))
        | .ok _ =>
          .ok ⟨file_path, s3_key, true, none, some size_bytes,
               (parts.getLast?).map Prod.snd⟩

/-- One attempt of the body of `S3Uploader._upload_file`.  The local
variable `size_bytes` is unbound until the `stat` call assigns it; when
`stat` itself raises, the `UploadResult(..., size_bytes=size_bytes, ...)`
construction in the `except` clause reads the
unbound local and raises `UnboundLocalError` out of the attempt. -/
def uploadFileOnce (fs : String → Option Nat) (chunk_size : Nat) (env : S3Env)
    (file_path s3_key : String) : Except PyErr UploadResult :=
  match fs file_path with
  | none =>
    -- except-handler path with `size_bytes` unbound
    .error (.unboundLocal "size_bytes")
  | some size_bytes =>
    if size_bytes > chunk_size then
      match multipart_upload fs chunk_size env file_path s3_key with
      | .ok r => .ok r
      | .error e =>
        -- caught by the handler of `_upload_file` with `size_bytes` bound
        .ok (failedResult file_path s3_key e.msg (some size_bytes))
    else
      match env.put with
      | .ok etag =>
        .ok ⟨file_path, s3_key, true, none, some size_bytes, etag⟩
      | .error e =>
        .ok (failedResult file_path s3_key e.msg (some size_bytes))

/-- The `@retry(stop=stop_after_attempt(3))` wrapper around the attempt:
with deterministic oracles the three attempts coincide, and a raising
body surfaces to the caller as the `RetryError` of `tenacity`. -/
def uploadFile (fs : String → Option Nat) (chunk_size : Nat) (env : S3Env)
    (file_path s3_key : String) : Except PyErr UploadResult :=
  match uploadFileOnce fs chunk_size env file_path s3_key with
  | .ok r => .ok r
  | .error _ => .error .retryError

/-! ### Invariants under verification -/

/-- The per-entry key discipline of `_upload_states`: every entry is
keyed by the `upload_id` of its own state. -/
def KeysOk (m : List (String × UploadState)) : Prop :=
  ∀ kv ∈ m, kv.2.upload_id = kv.1

/-- The dict well-formedness of `_upload_states`. -/
def StatesInv (m : List (String × UploadState)) : Prop :=
  KeysOk m ∧ (dkeys m).Nodup

/-- The disjointness property the spec asserts for every upload state. -/
def DisjointInv (t : Tracker) : Prop :=
  ∀ upload_id st, dlookup t.states upload_id = some st →
    ∀ p ∈ st.completed_files, p ∉ dkeys st.in_progress_files

/-- The state-file contents that `_load_state` can read through to the
entry loop: an object whose `upload_states` key holds an array. -/
def wellShaped (content : Option Json) : Bool :=
  match content with
  | some (.obj fields) =>
    match dlookup fields "upload_states" with
    | some (.arr _) => true
    | _ => false
  | _ => false

/-! ### Concrete instances used as counterexamples and witnesses -/

/-- A request registering upload id `u`. -/
def reqU : UploadRequest := ⟨"u", "/data/src", "bkt", "*"⟩

/-- Complete file `p`, then register a multipart session for the same
`p`: the call sequence violating the disjointness invariant. -/
def cexOpsDisjoint : List TrackerOp :=
  [.reg reqU, .mark "u" "p" true (some 5), .multi "u" "p" "sess" 1 0]

/-- The state the sequence `cexOpsDisjoint` leaves for upload `u`. -/
def cexStateDisjoint : UploadState :=
  ⟨"u", "/data/src", "bkt", "*", ["p"], [("p", ⟨"sess", 1, 0⟩)], [("p", 5)]⟩

/-- An admissible sequence: the multipart session is registered before
`q` is completed. -/
def witOpsDisjoint : List TrackerOp :=
  [.reg reqU, .multi "u" "q" "sess" 1 0, .mark "u" "q" true (some 3)]

/-- The state the sequence `witOpsDisjoint` leaves for upload `u`. -/
def witStateDisjoint : UploadState :=
  ⟨"u", "/data/src", "bkt", "*", ["q"], [], [("q", 3)]⟩

/-- An upload state: `a` completed with recorded mtime 5, `c` in
progress. -/
def stIncTest : UploadState :=
  ⟨"u", "/d", "b", "*", ["a"], [("c", ⟨"s", 1, 0⟩)], [("a", 5)]⟩

/-- A tracker with `stIncTest` registered under id `u`. -/
def trackIncTest : Tracker := ⟨[("u", stIncTest)], none⟩

/-- A directory listing with files `a` and `b`. -/
def listingTest : String → String → List String := fun _ _ => ["a", "b"]

/-- `a` still has its recorded mtime; everything else has mtime 7. -/
def mtimeTest : String → Int := fun p => if p = "a" then 5 else 7

/-- A watch target that has seen no files, last polled at time 10. -/
def mfTest : MonitoredFolder := ⟨"/d", "bkt", "*", 10, []⟩

/-- Poll snapshot: `a.txt` appeared and the registered callback raises. -/
def envRaise : PollEnv := ⟨["a.txt"], fun _ => 0, 20, true, true, true⟩

/-- Poll snapshot: `a.txt` appeared and the callback returns normally. -/
def envOk : PollEnv := ⟨["a.txt"], fun _ => 0, 20, true, false, true⟩

/-- A remote store on which every call succeeds. -/
def s3EnvOk : S3Env := ⟨.ok none, .ok "sess", fun _ => .ok "etag", .ok (), .ok ()⟩

/-- A filesystem with no files: every `stat` raises. -/
def fsEmpty : String → Option Nat := fun _ => none

/-- A well-formed persisted state entry for upload `u1`. -/
def goodStateLoad : UploadState := ⟨"u1", "/d", "b", "*", [], [], []⟩

/-- Another well-formed persisted state entry, for upload `u3`. -/
def goodStateLoad2 : UploadState := ⟨"u3", "/e", "b", "*", [], [], []⟩

/-- An entry with all four mandatory keys present but mistyped values
(`pattern` a number, `completed_files` the number 42) and the optional
keys absent: `_load_state` stores it raw and keeps going. -/
def mistypedEntry : Json :=
  .obj [("upload_id", .str "u2"), ("source_folder", .str "/d2"),
        ("destination_bucket", .str "b"), ("pattern", .num 7),
        ("completed_files", .num 42)]

/-- The raw state `_load_state` reconstructs from
`encodeState goodStateLoad`. -/
def rawGood : RawState :=
  ⟨.str "u1", .str "/d", .str "b", .str "*", .arr [], .obj [], .obj []⟩

/-- The raw state `_load_state` stores for `mistypedEntry`: the mistyped
values kept as-is, the absent optional fields defaulted. -/
def rawMistyped : RawState :=
  ⟨.str "u2", .str "/d2", .str "b", .num 7, .num 42, .obj [], .obj []⟩

/-- An `upload_states` array that is valid JSON but not of the expected
shape: a well-formed entry, then a mistyped-values entry, then `null`
(whose subscript raises `TypeError`, aborting the loop), then another
well-formed entry that is consequently never loaded. -/
def cexEntriesLoad : List Json :=
  [encodeState goodStateLoad, mistypedEntry, .null, encodeState goodStateLoad2]

/-- State-file content wrapping `cexEntriesLoad`. -/
def cexContentLoad : Option Json :=
  some (.obj [("upload_states", .arr cexEntriesLoad)])

/-- A tracker that already holds completion history for upload `u`. -/
def trackPrior : Tracker :=
  ⟨[("u", ⟨"u", "/old", "b", "*", ["old.txt"], [], [("old.txt", 1)]⟩)], none⟩

/-- A new request for the already-registered id `u`. -/
def reqReset : UploadRequest := ⟨"u", "/d", "b", "*"⟩

/-- The initial batch of the restarted upload: one successful file. -/
def resReset : List BatchResult := [⟨"new.txt", true, some 2⟩]

/-- The state `start_upload` leaves for `u` with `resReset`. -/
def stateReset : UploadState := ⟨"u", "/d", "b", "*", ["new.txt"], [], [("new.txt", 2)]⟩

/-- An upload state with one in-progress file `gone.txt`. -/
def stGone : UploadState :=
  ⟨"u", "/d", "b", "*", [], [("gone.txt", ⟨"s", 2, 100⟩)], []⟩

/-- A tracker with upload `u` holding `stGone` and a previously
persisted state file. -/
def trackMark : Tracker := ⟨[("u", stGone)], some Json.null⟩

/-- A coordinator wired to `trackMark` with one active upload and one
monitored folder. -/
def coordTest : Coordinator :=
  ⟨trackMark, ⟨[("u", mfTest)], ["u"], ["u"]⟩, ["u"]⟩

/-! ## Shared lemmas about the dict model -/

theorem dkeys_nil {α : Type} : dkeys ([] : List (String × α)) = [] := rfl

theorem dkeys_cons {α : Type} (kv : String × α) (m : List (String × α)) :
    dkeys (kv :: m) = kv.1 :: dkeys m := rfl

theorem dlookup_dinsert_self {α : Type} (m : List (String × α)) (k : String) (v : α) :
    dlookup (dinsert m k v) k = some v := by
  induction m with
  | nil => simp [dinsert, dlookup]
  | cons kv rest ih =>
    obtain ⟨k', v'⟩ := kv
    by_cases h : k' = k
    · simp [dinsert, h, dlookup]
    · simp [dinsert, h, dlookup, ih]

theorem dlookup_dinsert_ne {α : Type} (m : List (String × α)) (k k' : String) (v : α)
    (h : k' ≠ k) : dlookup (dinsert m k v) k' = dlookup m k' := by
  have hne : ¬(k = k') := fun e => h e.symm
  induction m with
  | nil => simp [dinsert, dlookup, hne]
  | cons kv rest ih =>
    obtain ⟨k0, v0⟩ := kv
    by_cases h0 : k0 = k
    · subst h0
      simp [dinsert, dlookup, hne]
    · by_cases h1 : k0 = k'
      · simp [dinsert, h0, dlookup, h1, hne, h]
      · simp [dinsert, h0, dlookup, h1, ih]

theorem dlookup_dremove_self {α : Type} (m : List (String × α)) (k : String) :
    dlookup (dremove m k) k = none := by
  induction m with
  | nil => rfl
  | cons kv rest ih =>
    obtain ⟨k0, v0⟩ := kv
    by_cases h0 : k0 = k
    · subst h0
      simpa [dremove, List.filter_cons] using ih
    · have hb : (k0 != k) = true := bne_iff_ne.mpr h0
      simpa [dremove, List.filter_cons, hb, dlookup, h0] using ih

theorem dlookup_dremove_ne {α : Type} (m : List (String × α)) (k k' : String)
    (h : k' ≠ k) : dlookup (dremove m k) k' = dlookup m k' := by
  have hne : ¬(k = k') := fun e => h e.symm
  induction m with
  | nil => rfl
  | cons kv rest ih =>
    obtain ⟨k0, v0⟩ := kv
    by_cases h0 : k0 = k
    · subst h0
      simpa [dremove, List.filter_cons, dlookup, hne] using ih
    · have hb : (k0 != k) = true := bne_iff_ne.mpr h0
      by_cases h1 : k0 = k'
      · simp [dremove, List.filter_cons, hb, dlookup, h1, hne, h]
      · simpa [dremove, List.filter_cons, hb, dlookup, h1] using ih

theorem mem_dkeys_dinsert {α : Type} (m : List (String × α)) (k a : String) (v : α) :
    a ∈ dkeys (dinsert m k v) ↔ a ∈ dkeys m ∨ a = k := by
  induction m with
  | nil => simp [dinsert, dkeys]
  | cons kv rest ih =>
    obtain ⟨k0, v0⟩ := kv
    by_cases h0 : k0 = k
    · subst h0
      rw [show dinsert ((k0, v0) :: rest) k0 v = (k0, v) :: rest from by
        simp [dinsert]]
      simp only [dkeys_cons, List.mem_cons]
      tauto
    · rw [show dinsert ((k0, v0) :: rest) k v = (k0, v0) :: dinsert rest k v from by
        simp [dinsert, h0]]
      simp only [dkeys_cons, List.mem_cons, ih]
      tauto

theorem mem_dkeys_dremove {α : Type} (m : List (String × α)) (k a : String) :
    a ∈ dkeys (dremove m k) ↔ a ∈ dkeys m ∧ a ≠ k := by
  induction m with
  | nil => simp [dremove, dkeys]
  | cons kv rest ih =>
    obtain ⟨k0, v0⟩ := kv
    by_cases h0 : k0 = k
    · subst h0
      rw [show dremove ((k0, v0) :: rest) k0 = dremove rest k0 by
        simp [dremove, List.filter_cons]]
      rw [ih, dkeys_cons, List.mem_cons]
      constructor
      · rintro ⟨hmem, hne⟩
        exact ⟨Or.inr hmem, hne⟩
      · rintro ⟨rfl | hmem, hne⟩
        · exact absurd rfl hne
        · exact ⟨hmem, hne⟩
    · have hb : (k0 != k) = true := bne_iff_ne.mpr h0
      rw [show dremove ((k0, v0) :: rest) k = (k0, v0) :: dremove rest k by
        simp [dremove, List.filter_cons, hb]]
      rw [dkeys_cons, dkeys_cons, List.mem_cons, List.mem_cons, ih]
      constructor
      · rintro (rfl | ⟨hmem, hne⟩)
        · exact ⟨Or.inl rfl, h0⟩
        · exact ⟨Or.inr hmem, hne⟩
      · rintro ⟨rfl | hmem, hne⟩
        · exact Or.inl rfl
        · exact Or.inr ⟨hmem, hne⟩

theorem mem_dinsert {α : Type} (m : List (String × α)) (k : String) (v : α)
    (kv : String × α) (h : kv ∈ dinsert m k v) : kv ∈ m ∨ kv = (k, v) := by
  induction m with
  | nil => simpa [dinsert] using h
  | cons kv0 rest ih =>
    obtain ⟨k0, v0⟩ := kv0
    by_cases h0 : k0 = k
    · subst h0
      rw [show dinsert ((k0, v0) :: rest) k0 v = (k0, v) :: rest from by
        simp [dinsert]] at h
      rcases List.mem_cons.mp h with h | h
      · exact Or.inr h
      · exact Or.inl (List.mem_cons_of_mem _ h)
    · rw [show dinsert ((k0, v0) :: rest) k v = (k0, v0) :: dinsert rest k v from by
        simp [dinsert, h0]] at h
      rcases List.mem_cons.mp h with h | h
      · exact Or.inl (h ▸ List.mem_cons_self _ _)
      · rcases ih h with h1 | h1
        · exact Or.inl (List.mem_cons_of_mem _ h1)
        · exact Or.inr h1

theorem dinsert_of_not_mem {α : Type} (m : List (String × α)) (k : String) (v : α)
    (h : k ∉ dkeys m) : dinsert m k v = m ++ [(k, v)] := by
  induction m with
  | nil => simp [dinsert]
  | cons kv rest ih =>
    obtain ⟨k0, v0⟩ := kv
    rw [dkeys_cons, List.mem_cons] at h
    push_neg at h
    have h0 : ¬(k0 = k) := fun e => h.1 e.symm
    simp [dinsert, h0, ih h.2]

theorem nodup_dkeys_dinsert {α : Type} (m : List (String × α)) (k : String) (v : α)
    (h : (dkeys m).Nodup) : (dkeys (dinsert m k v)).Nodup := by
  induction m with
  | nil => simp [dinsert, dkeys]
  | cons kv rest ih =>
    obtain ⟨k0, v0⟩ := kv
    rw [dkeys_cons, List.nodup_cons] at h
    by_cases h0 : k0 = k
    · subst h0
      rw [show dinsert ((k0, v0) :: rest) k0 v = (k0, v) :: rest from by
        simp [dinsert]]
      rw [dkeys_cons, List.nodup_cons]
      exact h
    · rw [show dinsert ((k0, v0) :: rest) k v = (k0, v0) :: dinsert rest k v from by
        simp [dinsert, h0]]
      rw [dkeys_cons, List.nodup_cons]
      refine ⟨fun hmem => ?_, ih h.2⟩
      rcases (mem_dkeys_dinsert rest k k0 v).1 hmem with hh | hh
      · exact h.1 hh
      · exact h0 hh

theorem dkeys_append {α : Type} (a b : List (String × α)) :
    dkeys (a ++ b) = dkeys a ++ dkeys b :=
  List.map_append _ _ _

theorem dlookup_some_mem {α : Type} (m : List (String × α)) (k : String) (v : α)
    (h : dlookup m k = some v) : (k, v) ∈ m := by
  induction m with
  | nil => simp [dlookup] at h
  | cons kv rest ih =>
    obtain ⟨k0, v0⟩ := kv
    by_cases h0 : k0 = k
    · subst h0
      simp [dlookup] at h
      simp [h]
    · simp [dlookup, h0] at h
      exact List.mem_cons_of_mem _ (ih h)

/-! ## Round-trip of the persistence encoding -/

theorem mapExcept_asStr (l : List String) :
    mapExcept asStr (l.map Json.str) = .ok l := by
  induction l with
  | nil => rfl
  | cons a rest ih => simp [mapExcept, asStr, ih]

theorem asDescriptor_encode (d : MultipartDescriptor) :
    asDescriptor (encodeDescriptor d) = .ok d := rfl

theorem mapExcept_descriptors (m : List (String × MultipartDescriptor)) :
    mapExcept (fun kv =>
        match asDescriptor kv.2 with
        | .error e => .error e
        | .ok d => .ok (kv.1, d))
      (m.map (fun kv => (kv.1, encodeDescriptor kv.2))) = .ok m := by
  induction m with
  | nil => rfl
  | cons kv rest ih =>
    obtain ⟨k, d⟩ := kv
    simp [mapExcept, asDescriptor_encode, ih]

theorem asNum_num (n : Int) : asNum (Json.num n) = .ok n := rfl

theorem mapExcept_nums (m : List (String × Int)) :
    mapExcept (fun kv =>
        match asNum kv.2 with
        | .error e => .error e
        | .ok n => .ok (kv.1, n))
      (m.map (fun kv => (kv.1, Json.num kv.2))) = .ok m := by
  induction m with
  | nil => rfl
  | cons kv rest ih =>
    obtain ⟨k, n⟩ := kv
    simp [mapExcept, asNum_num, ih]

theorem parseState_encodeState (s : UploadState) :
    parseState (encodeState s) = .ok s := by
  simp [parseState, encodeState, getRequired, dlookup, Except.bind, asStr,
    asStrList, asDescriptorMap, asNumMap, mapExcept_asStr, mapExcept_descriptors,
    mapExcept_nums]

theorem statesInv_nil : StatesInv [] := by
  constructor
  · intro kv h
    cases h
  · exact List.nodup_nil

theorem statesInv_dinsert (m : List (String × UploadState)) (k : String)
    (v : UploadState) (h : StatesInv m) (hk : v.upload_id = k) :
    StatesInv (dinsert m k v) := by
  constructor
  · intro kv hkv
    rcases mem_dinsert m k v kv hkv with hm | he
    · exact h.1 kv hm
    · subst he
      exact hk
  · exact nodup_dkeys_dinsert m k v h.2

theorem dlookup_upload_id (m : List (String × UploadState)) (k : String)
    (st : UploadState) (hinv : KeysOk m) (h : dlookup m k = some st) :
    st.upload_id = k :=
  hinv (k, st) (dlookup_some_mem m k st h)

theorem loadEntries_append (m : List (String × UploadState)) :
    ∀ acc, KeysOk m → (dkeys m).Nodup → (∀ a ∈ dkeys m, a ∉ dkeys acc) →
      loadEntries (m.map (fun kv => encodeState kv.2)) acc = acc ++ m := by
  induction m with
  | nil => intro acc _ _ _; simp [loadEntries]
  | cons kv rest ih =>
    intro acc h1 h2 h3
    obtain ⟨k, s⟩ := kv
    have hk : s.upload_id = k := h1 (k, s) (List.mem_cons_self _ _)
    rw [dkeys_cons, List.nodup_cons] at h2
    simp only [List.map_cons, loadEntries, parseState_encodeState s]
    rw [hk, dinsert_of_not_mem acc k s (h3 k (by rw [dkeys_cons]; exact List.mem_cons_self _ _))]
    rw [ih (acc ++ [(k, s)])
      (fun kv hkv => h1 kv (List.mem_cons_of_mem _ hkv)) h2.2 ?_]
    · simp
    · intro a ha
      rw [dkeys_append, List.mem_append]
      push_neg
      refine ⟨h3 a (by rw [dkeys_cons]; exact List.mem_cons_of_mem _ ha), ?_⟩
      intro hcontra
      simp [dkeys] at hcontra
      subst hcontra
      exact h2.1 ha

theorem statesInv_loadEntries (xs : List Json) :
    ∀ acc, StatesInv acc → StatesInv (loadEntries xs acc) := by
  induction xs with
  | nil => intro acc h; exact h
  | cons j rest ih =>
    intro acc h
    simp only [loadEntries]
    match hp : parseState j with
    | .error e => exact h
    | .ok st => exact ih _ (statesInv_dinsert acc st.upload_id st h rfl)

theorem statesInv_loadStates (content : Option Json) :
    StatesInv (loadStates content) := by
  match content with
  | none => exact statesInv_nil
  | some .null | some (.bool _) | some (.num _) | some (.str _) | some (.arr _) =>
    exact statesInv_nil
  | some (.obj fields) =>
    simp only [loadStates]
    match dlookup fields "upload_states" with
    | some (.arr xs) => exact statesInv_loadEntries xs [] statesInv_nil
    | some .null | some (.bool _) | some (.num _) | some (.str _)
    | some (.obj _) => exact statesInv_nil
    | none => exact statesInv_nil

theorem statesInv_step (t : Tracker) (op : TrackerOp) (h : StatesInv t.states) :
    StatesInv (trackerStep t op).states := by
  match op with
  | .reg req =>
    exact statesInv_dinsert t.states req.upload_id (freshState req) h rfl
  | .mark upload_id file_path success statResult =>
    cases hl : dlookup t.states upload_id with
    | none =>
      simp only [trackerStep, mark_file_complete, hl]
      exact h
    | some st =>
      have hid : st.upload_id = upload_id := dlookup_upload_id _ _ _ h.1 hl
      simp only [trackerStep, mark_file_complete, hl]
      by_cases hc : success = true ∧ file_path ∉ st.completed_files
      · rw [if_pos hc]
        cases statResult with
        | none => exact statesInv_dinsert _ _ _ h hid
        | some mtime => exact statesInv_dinsert _ _ _ h hid
      · rw [if_neg hc]
        exact statesInv_dinsert _ _ _ h hid
  | .multi upload_id file_path s3_upload_id part_number offset =>
    cases hl : dlookup t.states upload_id with
    | none =>
      simp only [trackerStep, register_multipart_upload, hl]
      exact h
    | some st =>
      have hid : st.upload_id = upload_id := dlookup_upload_id _ _ _ h.1 hl
      simp only [trackerStep, register_multipart_upload, hl]
      exact statesInv_dinsert _ _ _ h hid

theorem statesInv_run (t : Tracker) (ops : List TrackerOp) (h : StatesInv t.states) :
    StatesInv (trackerRun t ops).states := by
  induction ops generalizing t with
  | nil => exact h
  | cons op rest ih => exact ih (trackerStep t op) (statesInv_step t op h)

theorem loadStates_saveStates (m : List (String × UploadState)) (h : StatesInv m) :
    loadStates (some (saveStates m)) = m := by
  have : loadStates (some (saveStates m))
      = loadEntries (m.map (fun kv => encodeState kv.2)) [] := by
    simp [loadStates, saveStates, dlookup, dvalues, List.map_map]
    rfl
  rw [this, loadEntries_append m [] h.1 h.2 (by intro a _; simp [dkeys])]
  simp

/-- C4: Round-trip — for every reachable tracker state (any sequence of
mutating calls on a tracker constructed against any initial state-file
content), persisting the state via `_save_state` and constructing a
fresh `UploadTracker` against the resulting file yields, for every
upload id, the very same `UploadState`: equal completed-file list, equal
in-progress descriptor map, and equal last-modified-time map. -/
theorem tracker_state_roundtrip (content : Option Json) (ops : List TrackerOp)
    (upload_id : String) :
    get_upload_state
        (Tracker.initFrom
          (some (saveStates (trackerRun (Tracker.initFrom content) ops).states)))
        upload_id
      = get_upload_state (trackerRun (Tracker.initFrom content) ops) upload_id := by
  have hinv : StatesInv (trackerRun (Tracker.initFrom content) ops).states :=
    statesInv_run _ ops (statesInv_loadStates content)
  simp only [get_upload_state]
  exact congrArg (fun m => dlookup m upload_id) (loadStates_saveStates _ hinv)

/-! ## C1: disjointness of completed and in-progress -/

theorem disjointInv_init : DisjointInv Tracker.init := by
  intro upload_id st h
  simp [Tracker.init, dlookup] at h

theorem disjointInv_dinsert (t : Tracker) (k : String) (v : UploadState)
    (h : DisjointInv t)
    (hv : ∀ p ∈ v.completed_files, p ∉ dkeys v.in_progress_files)
    (upload_id : String) (st : UploadState)
    (hst : dlookup (dinsert t.states k v) upload_id = some st) :
    ∀ p ∈ st.completed_files, p ∉ dkeys st.in_progress_files := by
  by_cases hk : upload_id = k
  · subst hk
    rw [dlookup_dinsert_self] at hst
    cases hst
    exact hv
  · rw [dlookup_dinsert_ne _ _ _ _ hk] at hst
    exact h upload_id st hst

theorem disjointInv_step (t : Tracker) (op : TrackerOp) (h : DisjointInv t)
    (hadm : (match op with
      | .multi upload_id file_path _ _ _ =>
        match dlookup t.states upload_id with
        | some st => !(st.completed_files.contains file_path)
        | none => true
      | _ => true) = true) :
    DisjointInv (trackerStep t op) := by
  match op with
  | .reg req =>
    intro upload_id st hst
    refine disjointInv_dinsert t req.upload_id (freshState req) h ?_ upload_id st hst
    intro p hp
    simp [freshState] at hp
  | .mark upload_id file_path success statResult =>
    cases hl : dlookup t.states upload_id with
    | none =>
      simp only [trackerStep, mark_file_complete, hl]
      exact h
    | some st =>
      have hst : ∀ p ∈ st.completed_files, p ∉ dkeys st.in_progress_files :=
        h upload_id st hl
      simp only [trackerStep, mark_file_complete, hl]
      by_cases hc : success = true ∧ file_path ∉ st.completed_files
      · rw [if_pos hc]
        have hdisj2 : ∀ p ∈ st.completed_files ++ [file_path],
            p ∉ dkeys (dremove st.in_progress_files file_path) := by
          intro p hp
          rw [mem_dkeys_dremove]
          rcases List.mem_append.mp hp with hp | hp
          · intro hcontra
            exact hst p hp hcontra.1
          · rw [List.mem_singleton] at hp
            subst hp
            intro hcontra
            exact hcontra.2 rfl
        cases statResult with
        | none =>
          intro id2 st2 hst2
          exact disjointInv_dinsert t upload_id _ h hdisj2 id2 st2 hst2
        | some mtime =>
          intro id2 st2 hst2
          exact disjointInv_dinsert t upload_id _ h hdisj2 id2 st2 hst2
      · rw [if_neg hc]
        intro id2 st2 hst2
        refine disjointInv_dinsert t upload_id _ h ?_ id2 st2 hst2
        intro p hp
        rw [mem_dkeys_dremove]
        intro hcontra
        exact hst p hp hcontra.1
  | .multi upload_id file_path s3_upload_id part_number offset =>
    cases hl : dlookup t.states upload_id with
    | none =>
      simp only [trackerStep, register_multipart_upload, hl]
      exact h
    | some st =>
      simp only [hl] at hadm
      have hnc : file_path ∉ st.completed_files := by
        simpa using hadm
      have hst : ∀ p ∈ st.completed_files, p ∉ dkeys st.in_progress_files :=
        h upload_id st hl
      simp only [trackerStep, register_multipart_upload, hl]
      intro id2 st2 hst2
      refine disjointInv_dinsert t upload_id _ h ?_ id2 st2 hst2
      intro p hp
      rw [mem_dkeys_dinsert]
      push_neg
      exact ⟨hst p hp, fun e => hnc (e ▸ hp)⟩

theorem disjointInv_run (t : Tracker) (ops : List TrackerOp) (h : DisjointInv t)
    (hadm : admissibleFrom t ops = true) : DisjointInv (trackerRun t ops) := by
  induction ops generalizing t with
  | nil => exact h
  | cons op rest ih =>
    simp only [admissibleFrom, Bool.and_eq_true] at hadm
    exact ih (trackerStep t op) (disjointInv_step t op h hadm.1) hadm.2

/-- C1 counterexample: after registering upload `u`, completing file `p`
and then registering a multipart session for the same `p` — a sequence
of the three tracker calls — the state for `u` holds `p` both in
`completed_files` and as a key of `in_progress_files`, so the claimed
disjointness does not hold for every reachable state:
`register_multipart_upload` never consults `completed_files`. -/
theorem tracker_disjoint_counterexample :
    get_upload_state (trackerRun Tracker.init cexOpsDisjoint) "u"
        = some cexStateDisjoint ∧
    "p" ∈ cexStateDisjoint.completed_files ∧
    "p" ∈ dkeys cexStateDisjoint.in_progress_files := by
  refine ⟨by decide, by decide, by decide⟩

/-- C1 (amended): for every upload id, in every state of the tracker
reachable by a sequence of `register_upload`, `mark_file_complete` and
`register_multipart_upload` calls in which `register_multipart_upload`
is never invoked with a file path already recorded as completed for that
upload, the completed file set and the key set of the in-progress map
are disjoint. -/
theorem tracker_disjoint_admissible (ops : List TrackerOp)
    (hadm : admissibleFrom Tracker.init ops = true)
    (upload_id : String) (st : UploadState)
    (hst : get_upload_state (trackerRun Tracker.init ops) upload_id = some st)
    (p : String) (hp : p ∈ st.completed_files) :
    p ∉ dkeys st.in_progress_files :=
  disjointInv_run Tracker.init ops disjointInv_init hadm upload_id st hst p hp

theorem tracker_disjoint_admissible_witness :
    admissibleFrom Tracker.init witOpsDisjoint = true ∧
    "q" ∉ dkeys witStateDisjoint.in_progress_files :=
  ⟨by decide,
   tracker_disjoint_admissible witOpsDisjoint (by decide) "u" witStateDisjoint
     (by decide) "q" (by decide)⟩

/-! ## C3: the resume query -/

/-- C3: for a registered upload id, `get_incomplete_files` returns
exactly the currently listed files that are not completed or whose
current mtime differs from the recorded one (absent records read as 0,
as the `.get(file_path, 0)` in the code does), unioned with the in-progress
keys; for an unregistered id it returns the empty set. -/
theorem get_incomplete_files_spec (t : Tracker)
    (listing : String → String → List String) (mtime : String → Int)
    (upload_id : String) :
    (∀ st, dlookup t.states upload_id = some st →
      ∀ p, p ∈ get_incomplete_files t listing mtime upload_id ↔
        ((p ∈ listing st.source_folder st.pattern ∧
          (p ∉ st.completed_files ∨
            mtime p ≠ (dlookup st.last_modified_times p).getD 0)) ∨
         p ∈ dkeys st.in_progress_files))
    ∧ (dlookup t.states upload_id = none →
        get_incomplete_files t listing mtime upload_id = []) := by
  constructor
  · intro st hst p
    simp only [get_incomplete_files, hst]
    rw [List.mem_append, List.mem_filter]
    simp
  · intro hnone
    simp [get_incomplete_files, hnone]

theorem get_incomplete_files_spec_witness :
    "b" ∈ get_incomplete_files trackIncTest listingTest mtimeTest "u" :=
  ((get_incomplete_files_spec trackIncTest listingTest mtimeTest "u").1 stIncTest
      (by decide) "b").mpr
    (Or.inl ⟨by decide, Or.inl (by decide)⟩)

/-! ## C5/C6: the monitor poll iteration -/

theorem changedFiles_mem (m : MonitoredFolder) (env : PollEnv) (f : String) :
    f ∈ changedFiles m env ↔
      f ∈ env.current ∧ (f ∉ m.known_files ∨ env.mtime f > m.last_check) := by
  simp [changedFiles, List.mem_filter]

theorem pollIteration_delivered (m : MonitoredFolder) (env : PollEnv)
    (hreg : env.registered = true) :
    (pollIteration m env).delivered = deliveredSet m env := by
  simp only [pollIteration]
  rw [if_neg (by simp [hreg])]
  by_cases hC : (deliveredSet m env).isSome = true ∧ env.cbRaises = true
  · rw [if_pos hC]
  · rw [if_neg hC]

theorem pollIteration_broke (m : MonitoredFolder) (env : PollEnv)
    (hreg : env.registered = true) : (pollIteration m env).broke = false := by
  simp only [pollIteration]
  rw [if_neg (by simp [hreg])]
  by_cases hC : (deliveredSet m env).isSome = true ∧ env.cbRaises = true
  · rw [if_pos hC]
  · rw [if_neg hC]

theorem monitorLoop_length (envs : List PollEnv) :
    ∀ m : MonitoredFolder, (∀ e ∈ envs, e.registered = true) →
      (monitorLoop m envs).2.length = envs.length := by
  induction envs with
  | nil => intro m _; rfl
  | cons env rest ih =>
    intro m h
    have hreg : env.registered = true := h env (List.mem_cons_self _ _)
    simp only [monitorLoop, pollIteration_broke m env hreg]
    simp only [Bool.false_eq_true, if_false, List.length_cons]
    rw [ih _ (fun e he => h e (List.mem_cons_of_mem _ he))]

/-- C6: in one poll iteration for a registered target with a registered
callback, the callback is invoked at most once (`delivered` is a single
optional batch); when invoked it receives exactly the currently listed
files that are new or have mtime strictly above the timestamp of the
previous poll (in particular a subset of the current listing, so deleted
files are never reported); and it is not invoked exactly when the
changed set is empty. -/
theorem monitor_poll_delivery (m : MonitoredFolder) (env : PollEnv)
    (hreg : env.registered = true) (hcb : env.cbRegistered = true) :
    (∀ f, f ∈ (pollIteration m env).delivered.getD [] ↔
        (f ∈ env.current ∧ (f ∉ m.known_files ∨ env.mtime f > m.last_check)))
    ∧ ((pollIteration m env).delivered = none ↔ changedFiles m env = []) := by
  rw [pollIteration_delivered m env hreg]
  constructor
  · intro f
    rw [← changedFiles_mem]
    unfold deliveredSet
    by_cases hch : changedFiles m env = []
    · simp [hch]
    · simp [hch, hcb]
  · unfold deliveredSet
    by_cases hch : changedFiles m env = []
    · simp [hch]
    · simp [hch, hcb]

theorem monitor_poll_delivery_witness :
    "a.txt" ∈ (pollIteration mfTest envOk).delivered.getD [] :=
  ((monitor_poll_delivery mfTest envOk rfl rfl).1 "a.txt").mpr
    ⟨by decide, Or.inl (by decide)⟩

/-- C5 counterexample: a poll iteration in which the callback is invoked
(`delivered` is `some`) and raises leaves both the known-file set and
the last-check timestamp unchanged — the update is not unconditional,
because the update lines sit inside the same `try` after the callback
invocation. -/
theorem monitor_update_counterexample :
    (pollIteration mfTest envRaise).delivered.isSome = true ∧
    (pollIteration mfTest envRaise).folder.known_files ≠ envRaise.current ∧
    (pollIteration mfTest envRaise).folder.last_check ≠ envRaise.now := by
  refine ⟨by decide, by decide, by decide⟩

/-- C5 (amended): in every poll iteration for a registered target, the
known-file set and last-check timestamp are replaced by the current
listing and clock when the callback is not invoked or returns normally;
when the invoked callback raises, the exception is caught and the update
is skipped for that iteration; in either case the loop continues on the
next interval (one outcome per scheduled iteration, never terminating
early while the target stays registered). -/
theorem monitor_poll_update_amended :
    (∀ (m : MonitoredFolder) (env : PollEnv), env.registered = true →
      ((pollIteration m env).delivered.isSome = true → env.cbRaises = true →
          (pollIteration m env).folder = m) ∧
      ((pollIteration m env).delivered.isSome = true → env.cbRaises = false →
          (pollIteration m env).folder =
            { m with known_files := env.current, last_check := env.now }) ∧
      ((pollIteration m env).delivered.isSome = false →
          (pollIteration m env).folder =
            { m with known_files := env.current, last_check := env.now }))
    ∧ (∀ (m : MonitoredFolder) (envs : List PollEnv),
        (∀ e ∈ envs, e.registered = true) →
        (monitorLoop m envs).2.length = envs.length) := by
  constructor
  · intro m env hreg
    have hdel : (pollIteration m env).delivered = deliveredSet m env :=
      pollIteration_delivered m env hreg
    refine ⟨fun hs hr => ?_, fun hs hr => ?_, fun hs => ?_⟩
    · simp only [pollIteration]
      rw [if_neg (by simp [hreg]), if_pos ⟨by rw [hdel] at hs; exact hs, hr⟩]
    · simp only [pollIteration]
      rw [if_neg (by simp [hreg]), if_neg (by rw [hr]; simp)]
    · simp only [pollIteration]
      rw [if_neg (by simp [hreg]), if_neg (by rw [hdel] at hs; simp [hs])]
  · intro m envs h
    exact monitorLoop_length envs m h

theorem monitor_poll_update_amended_witness :
    (pollIteration mfTest envRaise).folder = mfTest ∧
    (pollIteration mfTest envOk).folder = ⟨"/d", "bkt", "*", 20, ["a.txt"]⟩ ∧
    (monitorLoop mfTest [envRaise, envOk]).2.length = 2 :=
  ⟨(monitor_poll_update_amended.1 mfTest envRaise rfl).1 (by decide) rfl,
   (monitor_poll_update_amended.1 mfTest envOk rfl).2.1 (by decide) rfl,
   monitor_poll_update_amended.2 mfTest [envRaise, envOk]
     (by intro e he; fin_cases he <;> rfl)⟩

/-! ## C8: stop_upload frame -/

/-- C8: for every upload id, `stop_upload` leaves the tracker — its
in-memory upload states and the persisted state-file content — entirely
unchanged, while the id is no longer a monitored target and no longer an
active upload afterwards. -/
theorem stop_upload_frame (c : Coordinator) (upload_id : String) :
    (stop_upload c upload_id).tracker = c.tracker ∧
    (stop_upload c upload_id).tracker.states = c.tracker.states ∧
    (stop_upload c upload_id).tracker.stateFile = c.tracker.stateFile ∧
    dlookup (stop_upload c upload_id).monitor.monitors upload_id = none ∧
    upload_id ∉ (stop_upload c upload_id).active_uploads := by
  refine ⟨rfl, rfl, rfl, ?_, ?_⟩
  · simp only [stop_upload, unregister_folder]
    by_cases h : (dlookup c.monitor.monitors upload_id).isNone = true
    · rw [if_pos h]
      simpa [Option.isNone_iff_eq_none] using h
    · rw [if_neg h]
      exact dlookup_dremove_self _ _
  · intro hmem
    simp only [stop_upload] at hmem
    rw [List.mem_filter] at hmem
    simp at hmem

/-! ## C9: register_upload resets history -/

theorem mark_file_complete_states (t : Tracker) (upload_id file_path : String)
    (success : Bool) (statResult : Option Int) (stp : UploadState)
    (hl : dlookup t.states upload_id = some stp) :
    ∃ st2, (mark_file_complete t upload_id file_path success statResult).1.states
        = dinsert t.states upload_id st2 ∧
      (st2.completed_files = stp.completed_files ∨
       st2.completed_files = stp.completed_files ++ [file_path]) := by
  simp only [mark_file_complete, hl]
  by_cases hc : success = true ∧ file_path ∉ stp.completed_files
  · rw [if_pos hc]
    cases statResult with
    | none => exact ⟨_, rfl, Or.inr rfl⟩
    | some mtime => exact ⟨_, rfl, Or.inr rfl⟩
  · rw [if_neg hc]
    exact ⟨_, rfl, Or.inl rfl⟩

theorem processResults_completed (results : List BatchResult) :
    ∀ (t : Tracker) (upload_id : String) (P : String → Prop),
      (∀ st0, dlookup t.states upload_id = some st0 →
        ∀ p ∈ st0.completed_files, P p) →
      (∀ r ∈ results, r.success = true → P r.file_path) →
      ∀ st, dlookup (processResults t upload_id results).states upload_id = some st →
        ∀ p ∈ st.completed_files, P p := by
  induction results with
  | nil =>
    intro t upload_id P hbase _ st hst p hp
    exact hbase st hst p hp
  | cons r rest ih =>
    intro t upload_id P hbase hres st hst p hp
    simp only [processResults] at hst
    refine ih _ upload_id P ?_
      (fun r2 hr2 => hres r2 (List.mem_cons_of_mem _ hr2)) st hst p hp
    intro st0 hst0 q hq
    by_cases hs : r.success = true
    · rw [if_pos hs] at hst0
      cases hl : dlookup t.states upload_id with
      | none =>
        have hmm : mark_file_complete t upload_id r.file_path r.success r.statResult
            = (t, none) := by
          simp only [mark_file_complete, hl]
        rw [hmm] at hst0
        exact hbase st0 hst0 q hq
      | some stp =>
        obtain ⟨st2, heq, hcomp⟩ :=
          mark_file_complete_states t upload_id r.file_path r.success r.statResult
            stp hl
        rw [heq, dlookup_dinsert_self] at hst0
        cases hst0
        rcases hcomp with hcomp | hcomp
        · rw [hcomp] at hq
          exact hbase stp hl q hq
        · rw [hcomp] at hq
          rcases List.mem_append.mp hq with hq | hq
          · exact hbase stp hl q hq
          · rw [List.mem_singleton] at hq
            subst hq
            exact hres r (List.mem_cons_self _ _) hs
    · rw [if_neg hs] at hst0
      exact hbase st0 hst0 q hq

/-- C9: `register_upload` on a request whose id is already registered
unconditionally replaces the stored state with a fresh one whose
completed, in-progress and last-modified collections are empty, and
persists the replacement; `start_upload` performs this registration
unconditionally, so every file completed for the id after the restart
comes from the new batch — prior completion history is erased. -/
theorem start_upload_resets (t : Tracker) (req : UploadRequest)
    (results : List BatchResult) :
    get_upload_state (register_upload t req) req.upload_id
        = some (freshState req) ∧
    (register_upload t req).stateFile =
      some (saveStates (dinsert t.states req.upload_id (freshState req))) ∧
    (∀ st p,
      get_upload_state (startUploadTracker t req results) req.upload_id = some st →
      p ∈ st.completed_files →
      ∃ r ∈ results, r.success = true ∧ r.file_path = p) := by
  refine ⟨?_, rfl, ?_⟩
  · simp only [get_upload_state, register_upload]
    exact dlookup_dinsert_self _ _ _
  · intro st p hst hp
    refine processResults_completed results (register_upload t req) req.upload_id
      (fun q => ∃ r ∈ results, r.success = true ∧ r.file_path = q) ?_ ?_ st hst p hp
    · intro st0 hst0 q hq
      rw [show dlookup (register_upload t req).states req.upload_id
          = some (freshState req) from dlookup_dinsert_self _ _ _] at hst0
      cases hst0
      simp [freshState] at hq
    · intro r hr hsucc
      exact ⟨r, hr, hsucc, rfl⟩

theorem start_upload_resets_witness :
    get_upload_state (register_upload trackPrior reqReset) "u"
        = some (freshState reqReset) ∧
    (∃ r ∈ resReset, r.success = true ∧ r.file_path = "new.txt") :=
  ⟨(start_upload_resets trackPrior reqReset resReset).1,
   (start_upload_resets trackPrior reqReset resReset).2.2 stateReset "new.txt"
     (by decide) (by decide)⟩

/-! ## C10: mark_file_complete on a vanished file -/

/-- C10: calling `mark_file_complete` for a registered upload with a
successful result whose path is not yet completed but whose `stat`
raises (the file no longer exists) propagates the exception out of the
method; at that point the path has been removed from the in-progress map
and appended to `completed_files` in memory (with the recorded
modification times untouched), and the state file has not been
rewritten. -/
theorem mark_complete_vanished (t : Tracker) (upload_id file_path : String)
    (st : UploadState) (hst : dlookup t.states upload_id = some st)
    (hnc : file_path ∉ st.completed_files) :
    (mark_file_complete t upload_id file_path true none).2 =
      some (.fileNotFound file_path) ∧
    dlookup (mark_file_complete t upload_id file_path true none).1.states upload_id =
      some { st with
        in_progress_files := dremove st.in_progress_files file_path,
        completed_files := st.completed_files ++ [file_path] } ∧
    (mark_file_complete t upload_id file_path true none).1.stateFile =
      t.stateFile := by
  simp only [mark_file_complete, hst]
  rw [if_pos (⟨trivial, hnc⟩ : True ∧ file_path ∉ st.completed_files)]
  exact ⟨rfl, dlookup_dinsert_self _ _ _, rfl⟩

theorem mark_complete_vanished_witness :
    (mark_file_complete trackMark "u" "gone.txt" true none).2 =
      some (.fileNotFound "gone.txt") ∧
    (mark_file_complete trackMark "u" "gone.txt" true none).1.stateFile =
      trackMark.stateFile :=
  ⟨(mark_complete_vanished trackMark "u" "gone.txt" stGone (by decide) (by decide)).1,
   (mark_complete_vanished trackMark "u" "gone.txt" stGone (by decide) (by decide)).2.2⟩

/-! ## C2: the missing-file path of the transfer engine -/

/-- C2 does not hold of the code: for a file whose `stat` raises (the
file does not exist or vanished before its size was read), the `except`
clause of `_upload_file` builds its failed `UploadResult` from the local
`size_bytes`, which the raising `stat` never assigned — the handler
itself raises `UnboundLocalError`, every retry attempt does the same,
and `_upload_file` raises to its caller instead of returning a result
with `success = False` and the message in `error`. -/
theorem upload_missing_file_raises :
    uploadFileOnce fsEmpty 8388608 s3EnvOk "/data/gone.bin" "k" =
      .error (.unboundLocal "size_bytes") ∧
    uploadFile fsEmpty 8388608 s3EnvOk "/data/gone.bin" "k" =
      .error .retryError :=
  ⟨rfl, rfl⟩

/-! ## C7: loading a malformed state file -/

theorem loadEntryRaw_encodeState (s : UploadState) :
    loadEntryRaw (encodeState s) = .ok (.str s.upload_id, toRawState s) := rfl

/-- C7 counterexample: a state file holding valid JSON whose
`upload_states` array has a well-formed entry, a mistyped-values entry
and then a `null` entry — content that is not parseable as the expected
shape — yields a tracker with two upload states, not zero: `_load_state`
stores entries (mistyped values included, unvalidated) until the first
raising entry, and the `except` clause keeps what was already
inserted. -/
theorem load_state_partial_counterexample :
    loadStatesRaw cexContentLoad
        = [(Json.str "u1", rawGood), (Json.str "u2", rawMistyped)] ∧
    loadStatesRaw cexContentLoad ≠ [] ∧
    jlookup (loadStatesRaw cexContentLoad) (Json.str "u1") = some rawGood := by
  refine ⟨rfl, ?_, rfl⟩
  intro h
  rw [show loadStatesRaw cexContentLoad
      = [(Json.str "u1", rawGood), (Json.str "u2", rawMistyped)] from rfl] at h
  exact List.cons_ne_nil _ _ h

theorem loadEntriesRaw_takeWhile (xs : List Json) :
    ∀ acc, loadEntriesRaw xs acc =
      ((xs.takeWhile fun j => (loadEntryRaw j).isOk).filterMap
          fun j => (loadEntryRaw j).toOption).foldl
        (fun acc kv => jinsert acc kv.1 kv.2) acc := by
  induction xs with
  | nil => intro acc; rfl
  | cons j rest ih =>
    intro acc
    simp only [loadEntriesRaw]
    cases hp : loadEntryRaw j with
    | error e =>
      have hb : (loadEntryRaw j).isOk = false := by rw [hp]; rfl
      rw [List.takeWhile_cons]
      simp [hb]
    | ok kv =>
      have hb : (loadEntryRaw j).isOk = true := by rw [hp]; rfl
      have ho : (loadEntryRaw j).toOption = some kv := by rw [hp]; rfl
      rw [List.takeWhile_cons]
      simp [hb, ho, ih]

/-- C7 (amended): constructing a tracker against an unreadable file, a
file that is not valid JSON, or JSON in which no `upload_states` array
is reachable yields zero upload states and never raises; when the array
is reachable, the tracker retains exactly the entries before the first
raising one — an entry that is not an object, that lacks one of the four
mandatory keys, or whose upload id value is unhashable — each stored
keyed by its raw upload id with its field values kept unvalidated
(mistyped present values do not stop the load). -/
theorem load_state_degrades (content : Option Json) :
    (wellShaped content = false → loadStatesRaw content = [])
    ∧ (∀ fields xs, content = some (.obj fields) →
        dlookup fields "upload_states" = some (.arr xs) →
        loadStatesRaw content =
          ((xs.takeWhile fun j => (loadEntryRaw j).isOk).filterMap
              fun j => (loadEntryRaw j).toOption).foldl
            (fun acc kv => jinsert acc kv.1 kv.2) []) := by
  constructor
  · intro hbad
    match content with
    | none => rfl
    | some .null => rfl
    | some (.bool _) => rfl
    | some (.num _) => rfl
    | some (.str _) => rfl
    | some (.arr _) => rfl
    | some (.obj fields) =>
      rcases hd : dlookup fields "upload_states" with _ | j
      · simp [loadStatesRaw, hd]
      · cases j with
        | arr xs =>
          rw [wellShaped, hd] at hbad
          cases hbad
        | null => simp [loadStatesRaw, hd]
        | bool b => simp [loadStatesRaw, hd]
        | num n => simp [loadStatesRaw, hd]
        | str s => simp [loadStatesRaw, hd]
        | obj fs => simp [loadStatesRaw, hd]
  · intro fields xs hcontent hd
    subst hcontent
    simp only [loadStatesRaw, hd]
    exact loadEntriesRaw_takeWhile xs []

theorem load_state_degrades_witness :
    loadStatesRaw (some (Json.str "oops")) = [] ∧
    loadStatesRaw cexContentLoad =
      ((cexEntriesLoad.takeWhile fun j => (loadEntryRaw j).isOk).filterMap
          fun j => (loadEntryRaw j).toOption).foldl
        (fun acc kv => jinsert acc kv.1 kv.2) [] :=
  ⟨(load_state_degrades (some (Json.str "oops"))).1 rfl,
   (load_state_degrades cexContentLoad).2
     [("upload_states", .arr cexEntriesLoad)] cexEntriesLoad rfl rfl⟩

end UploadService
